import Mathlib

/-!
Verification of the inventory-management API in `tims/backend.py`.

The backend is a Flask application holding all state in memory: a static
credential table `users`, and two keyed collections `products` and
`suppliers` with monotonic id counters.  Handlers receive a JSON body
(modelled as a `Dict`, an association list of string keys to JSON values
in insertion order, matching Python's dict semantics) and return a
status code and JSON body.

Modelling conventions:
 - JSON / Python values are the inductive `Value`; Python `dict`s are
   association lists with first-match lookup, in-place overwrite on key
   collision and append for fresh keys — exactly Python's insertion-order
   semantics for dicts with unique keys.
 - Machine integers are `Int` (Python ints are unbounded, so no modular
   arithmetic is needed).
 - Python treats `bool` as a subtype of `int` (`isinstance(True, int)` is
   true and `True == 1`); `intLike` captures the values the code's
   `isinstance(change, int)` test accepts and their integer value.
 - Where the Python code would raise an uncaught `TypeError` (a
   lowercase/containment/ordering/`+=` operation on a value of the wrong
   runtime type, or a dict lookup keyed by an unhashable value), the
   embedding takes a harmless total branch; every theorem below stays
   inside the region where the Python code runs without raising, via
   explicit typing hypotheses on the values involved.
-/

namespace Tims

/-- JSON values exchanged by the API (Python scalars, lists and dicts). -/
inductive Value : Type where
  | vNull : Value
  | vBool : Bool → Value
  | vInt : Int → Value
  | vStr : String → Value
  | vArr : List Value → Value
  | vObj : List (String × Value) → Value

/-- A Python `dict` with string keys, as an insertion-ordered association list. -/
abbrev Dict := List (String × Value)

/-- Python `d[k]` / `d.get(k)`: first binding of `k`, if any. -/
def alGet {α β : Type} [DecidableEq α] : List (α × β) → α → Option β
  | [], _ => none
  | (k, v) :: rest, key => if key = k then some v else alGet rest key

/-- Python `d[k] = v`: overwrite in place when `k` is bound, else append. -/
def alSet {α β : Type} [DecidableEq α] : List (α × β) → α → β → List (α × β)
  | [], key, val => [(key, val)]
  | (k, v) :: rest, key, val =>
      if key = k then (key, val) :: rest else (k, v) :: alSet rest key val

/-- Python `del d[k]`: drop the (unique) binding of `k`. -/
def alDel {α β : Type} [DecidableEq α] : List (α × β) → α → List (α × β)
  | [], _ => []
  | (k, v) :: rest, key => if key = k then rest else (k, v) :: alDel rest key

/-- The keys of an association list, in order. -/
def alKeys {α β : Type} (l : List (α × β)) : List α := l.map Prod.fst

/-- Python `d.get(k)` (default `None`). -/
def pyGet (d : Dict) (k : String) : Value := (alGet d k).getD .vNull

/-- Python `d.get(k, dflt)`. -/
def pyGetD (d : Dict) (k : String) (dflt : Value) : Value := (alGet d k).getD dflt

/-- Python `d.update(u)`: merge `u` into `d` left to right. -/
def dictUpdate (d : Dict) (u : Dict) : Dict :=
  u.foldl (fun acc kv => alSet acc kv.1 kv.2) d

/-- The integer value of a Python `int`, counting `bool` as Python does
(`bool` is a subclass of `int`, `True == 1`, `False == 0`). -/
def intLike : Value → Option Int
  | .vInt n => some n
  | .vBool b => some (if b then 1 else 0)
  | _ => none

/-- Integer value of an int-like `Value` (0 elsewhere; used only after an
`intLike` test succeeded). -/
def pyToInt (v : Value) : Int := (intLike v).getD 0

/-- Python `s == v` for a string `s` against an arbitrary value: string
equality when `v` is a string, `False` otherwise. -/
def pyEqStr (s : String) : Value → Bool
  | .vStr t => decide (s = t)
  | _ => false

/-- A value Python may use as a dict key without raising `TypeError`
(lists and dicts are unhashable). -/
def hashableVal : Value → Bool
  | .vArr _ => false
  | .vObj _ => false
  | _ => true

/-- The static credential store: username ↦ (password, role). -/
def users : List (String × String × String) :=
  [("admin", "adminpassword", "Admin"),
   ("manager", "managerpassword", "Manager"),
   ("staff", "staffpassword", "Staff")]

/-- `get_user_role`: the stored role when the username is bound in `users`
and the stored password equals the supplied one; `None` otherwise.
A non-string username is never bound (Python compares dict keys with `==`,
and `users` has only string keys); an unhashable username would raise in
Python and is excluded by a `hashableVal` hypothesis where it matters. -/
def get_user_role (username password : Value) : Option String :=
  match username with
  | .vStr u =>
      match alGet users u with
      | some pr => if pyEqStr pr.1 password then some pr.2 else none
      | none => none
  | _ => none

/-- The role resolved from the credentials embedded in a request body. -/
def reqRole (req : Dict) : Option String :=
  get_user_role (pyGet req "username") (pyGet req "password")

/-- An HTTP response: status code and JSON body. -/
structure Response : Type where
  status : Nat
  body : Value

/-- The error payload shape `{"error": msg}` used by every failure path. -/
def errBody (msg : String) : Value := .vObj [("error", .vStr msg)]

/-- The `/login` handler: 200 with `{message, username, role}` when
`get_user_role` finds a role (roles are nonempty strings, hence truthy),
else 401 with an error payload. -/
def login (req : Dict) : Response :=
  match reqRole req with
  | some r => ⟨200, .vObj [("message", .vStr "Login successful"),
                           ("username", pyGet req "username"),
                           ("role", .vStr r)]⟩
  | none => ⟨401, errBody "Invalid credentials"⟩

/-- C1: for every (username, password) pair present in the credential store
with exactly matching plaintext password, POST /login returns 200 with a body
carrying that username and the stored role; for every other pair — missing,
non-string or mismatching credentials (any hashable username) — it returns
401 with the error payload. -/
theorem login_contract (req : Dict) :
    (∀ u pw r, alGet users u = some (pw, r) →
        pyGet req "username" = .vStr u → pyGet req "password" = .vStr pw →
        login req = ⟨200, .vObj [("message", .vStr "Login successful"),
                                 ("username", .vStr u),
                                 ("role", .vStr r)]⟩) ∧
    (hashableVal (pyGet req "username") = true →
      (¬ ∃ u pw r, alGet users u = some (pw, r) ∧
          pyGet req "username" = .vStr u ∧ pyGet req "password" = .vStr pw) →
      login req = ⟨401, errBody "Invalid credentials"⟩) := by
  constructor
  · intro u pw r hget hu hp
    unfold login reqRole get_user_role
    rw [hu, hp]
    simp [hget, pyEqStr]
  · intro _ hno
    unfold login reqRole get_user_role
    cases hu : pyGet req "username" with
    | vStr u =>
      cases hget : alGet users u with
      | none => simp [hget]
      | some pr =>
        obtain ⟨pw, r⟩ := pr
        have hne : pyEqStr pw (pyGet req "password") = false := by
          cases hp : pyGet req "password" with
          | vStr t =>
            simp only [pyEqStr, decide_eq_false_iff_not]
            intro h
            exact hno ⟨u, pw, r, hget, hu, by rw [hp, h]⟩
          | vNull => rfl
          | vBool b => rfl
          | vInt n => rfl
          | vArr a => rfl
          | vObj o => rfl
        simp [hget, hne]
    | vNull => rfl
    | vBool b => rfl
    | vInt n => rfl
    | vArr a => rfl
    | vObj o => rfl

/-- A login request with the admin credentials from the store. -/
def reqAdminLogin : Dict :=
  [("username", .vStr "admin"), ("password", .vStr "adminpassword")]

/-- A login request with a wrong password. -/
def reqBadLogin : Dict :=
  [("username", .vStr "admin"), ("password", .vStr "wrong")]

/-- Witness for C1: the admin credentials log in with role Admin, and a
wrong password is rejected with 401. -/
theorem login_contract_witness :
    login reqAdminLogin = ⟨200, .vObj [("message", .vStr "Login successful"),
                                       ("username", .vStr "admin"),
                                       ("role", .vStr "Admin")]⟩ ∧
    login reqBadLogin = ⟨401, errBody "Invalid credentials"⟩ := by
  constructor
  · exact (login_contract reqAdminLogin).1 "admin" "adminpassword" "Admin" rfl rfl rfl
  · refine (login_contract reqBadLogin).2 rfl ?_
    rintro ⟨u, pw, r, hget, hu, hp⟩
    have hu₂ : u = "admin" := by
      have h := hu
      simp [pyGet, reqBadLogin, alGet] at h
      exact h.symm
    subst hu₂
    simp [users, alGet] at hget
    obtain ⟨h1, h2⟩ := hget
    subst h1
    simp [pyGet, reqBadLogin, alGet] at hp

/-- The mutable server state: the two keyed collections and their id counters. -/
structure St : Type where
  products : List (Int × Dict)
  suppliers : List (Int × Dict)
  product_id_counter : Int
  supplier_id_counter : Int

/-- Initial product 1 from the module-level store. -/
def prod1rec : Dict :=
  [("id", .vInt 1), ("name", .vStr "Fiber Optic Cable"), ("category", .vStr "Cables"),
   ("stock_level", .vInt 500), ("reorder_point", .vInt 100)]

/-- Initial product 2 from the module-level store. -/
def prod2rec : Dict :=
  [("id", .vInt 2), ("name", .vStr "Router X-500"), ("category", .vStr "Networking"),
   ("stock_level", .vInt 50), ("reorder_point", .vInt 20)]

/-- Initial product 3 from the module-level store. -/
def prod3rec : Dict :=
  [("id", .vInt 3), ("name", .vStr "Modem Pro-100"), ("category", .vStr "Networking"),
   ("stock_level", .vInt 75), ("reorder_point", .vInt 15)]

/-- Initial product 4 from the module-level store. -/
def prod4rec : Dict :=
  [("id", .vInt 4), ("name", .vStr "Satellite Dish"), ("category", .vStr "Antennas"),
   ("stock_level", .vInt 10), ("reorder_point", .vInt 5)]

/-- Initial supplier 1 from the module-level store. -/
def supp1rec : Dict :=
  [("id", .vInt 1), ("name", .vStr "Global Telecom Solutions"),
   ("contact_info", .vStr "contact@globaltele.com")]

/-- Initial supplier 2 from the module-level store. -/
def supp2rec : Dict :=
  [("id", .vInt 2), ("name", .vStr "FiberLink Inc."),
   ("contact_info", .vStr "sales@fiberlink.net")]

/-- The module-level stores and counters at startup. -/
def initialState : St :=
  ⟨[(1, prod1rec), (2, prod2rec), (3, prod3rec), (4, prod4rec)],
   [(1, supp1rec), (2, supp2rec)], 5, 3⟩

/-- Python `str.lower()` (ASCII range, which covers every string this
backend holds), defined by mapping over the characters so that it computes
by reduction. -/
def strLower (s : String) : String := ⟨s.data.map Char.toLower⟩

/-- Does the second character list start with the first? -/
def leadMatch : List Char → List Char → Bool
  | [], _ => true
  | _ :: _, [] => false
  | a :: as, b :: bs => a == b && leadMatch as bs

/-- Does `pat` occur contiguously inside the second list (Python `in` on
strings)? -/
def occursIn (pat : List Char) : List Char → Bool
  | [] => pat.isEmpty
  | b :: bs => leadMatch pat (b :: bs) || occursIn pat bs

/-- `name_query in p['name'].lower()` for a lowercased query, `false` off
strings (Python would raise `TypeError` there). -/
def lowerContains (q : String) (v : Value) : Bool :=
  match v with
  | .vStr s => occursIn q.data (strLower s).data
  | _ => false

/-- `p['stock_level'] < p['reorder_point']` on int-like fields (Python would
raise comparing other types against ints). -/
def stockLow (p : Dict) : Bool :=
  match intLike (pyGet p "stock_level"), intLike (pyGet p "reorder_point") with
  | some a, some b => decide (a < b)
  | _, _ => false

/-- `p['stock_level'] <= 0` on an int-like field. -/
def stockOut (p : Dict) : Bool :=
  match intLike (pyGet p "stock_level") with
  | some a => decide (a ≤ 0)
  | none => false

/-- The `if name_query:` narrowing step of `get_products` (the query is
already lowercased; an empty query string is falsy and skips the step). -/
def filterByName (nq : String) (l : List Dict) : List Dict :=
  if nq = "" then l else l.filter (fun p => lowerContains nq (pyGet p "name"))

/-- The `if category_query:` narrowing step of `get_products`. -/
def filterByCategory (cq : String) (l : List Dict) : List Dict :=
  if cq = "" then l else l.filter (fun p => lowerContains cq (pyGet p "category"))

/-- The `if stock_status_query:` narrowing step of `get_products`: only the
keywords "low" and "out of stock" filter; anything else leaves the list
as it stands. -/
def filterByStock (sq : String) (l : List Dict) : List Dict :=
  if sq = "" then l
  else if sq = "low" then l.filter stockLow
  else if sq = "out of stock" then l.filter stockOut
  else l

/-- The list built by `get_products`: the product records in store order,
narrowed by each query in turn (name substring, category substring, then
the stock-status keywords), each query lowercased first. -/
def get_products_list (nameQ categoryQ stockQ : String) (s : St) : List Dict :=
  filterByStock (strLower stockQ)
    (filterByCategory (strLower categoryQ)
      (filterByName (strLower nameQ) (s.products.map Prod.snd)))

/-- The `GET /products` handler: always 200 with the filtered list. -/
def get_products (nameQ categoryQ stockQ : String) (s : St) : Response :=
  ⟨200, .vArr ((get_products_list nameQ categoryQ stockQ s).map Value.vObj)⟩

/-- The four keys `add_product` requires in the payload. -/
def requiredProductKeys : List String :=
  ["name", "category", "stock_level", "reorder_point"]

/-- The `POST /products` handler: 403 unless the credentials resolve to
Admin or Manager; 400 when the product object is empty or lacks a required
key (a non-dict `product` value would raise in Python at the `in` test or
the subscripts and is mapped to the same no-mutation 400 outcome); else
builds the record under the current counter, stores it, bumps the counter
and returns 201. -/
def add_product (req : Dict) (s : St) : Response × St :=
  if reqRole req ∉ ([some "Admin", some "Manager"] : List (Option String)) then
    (⟨403, errBody "Unauthorized access"⟩, s)
  else
    match pyGetD req "product" (.vObj []) with
    | .vObj fs =>
        if fs.isEmpty || requiredProductKeys.any (fun k => (alGet fs k).isNone) then
          (⟨400, errBody "Invalid product data"⟩, s)
        else
          let np : Dict :=
            [("id", .vInt s.product_id_counter), ("name", pyGet fs "name"),
             ("category", pyGet fs "category"), ("stock_level", pyGet fs "stock_level"),
             ("reorder_point", pyGet fs "reorder_point")]
          (⟨201, .vObj np⟩,
           { s with products := alSet s.products s.product_id_counter np,
                    product_id_counter := s.product_id_counter + 1 })
    | _ => (⟨400, errBody "Invalid product data"⟩, s)

/-- C2: a request to POST /products whose credentials resolve to Staff or to
no role is answered 403 with the state untouched, whatever the payload —
the authorization check precedes any payload validation. -/
theorem add_product_staff_forbidden (req : Dict) (s : St)
    (h : reqRole req = some "Staff" ∨ reqRole req = none) :
    add_product req s = (⟨403, errBody "Unauthorized access"⟩, s) := by
  unfold add_product
  rcases h with h | h <;> rw [h] <;> simp

/-- A POST /products request with staff credentials and a garbage payload. -/
def reqStaffAdd : Dict :=
  [("username", .vStr "staff"), ("password", .vStr "staffpassword"),
   ("product", .vStr "garbage")]

/-- Witness for C2: staff credentials with an invalid payload get 403 and
the initial state is unchanged. -/
theorem add_product_staff_forbidden_witness :
    add_product reqStaffAdd initialState = (⟨403, errBody "Unauthorized access"⟩, initialState) :=
  add_product_staff_forbidden reqStaffAdd initialState (Or.inl rfl)

/-- C3: GET /products applies the supplied filters conjunctively — a record
is in the result iff it is in the store and passes every nonempty filter,
where name and category are case-insensitive substring matches and the
recognised stock keywords are "low" and "out of stock"; with no filter the
full collection is returned in store (insertion) order; the status is 200
with no error path. -/
theorem get_products_filtering (nameQ categoryQ stockQ : String) (s : St) (p : Dict)
    (hq : strLower stockQ = "" ∨ strLower stockQ = "low" ∨ strLower stockQ = "out of stock") :
    (get_products nameQ categoryQ stockQ s).status = 200 ∧
    get_products_list "" "" "" s = s.products.map Prod.snd ∧
    (p ∈ get_products_list nameQ categoryQ stockQ s ↔
      p ∈ s.products.map Prod.snd ∧
      (strLower nameQ ≠ "" → lowerContains (strLower nameQ) (pyGet p "name") = true) ∧
      (strLower categoryQ ≠ "" → lowerContains (strLower categoryQ) (pyGet p "category") = true) ∧
      (strLower stockQ = "low" → stockLow p = true) ∧
      (strLower stockQ = "out of stock" → stockOut p = true)) := by
  have hlower : strLower "" = "" := rfl
  have hname : ∀ nq l, p ∈ filterByName nq l ↔
      p ∈ l ∧ (nq ≠ "" → lowerContains nq (pyGet p "name") = true) := by
    intro nq l
    unfold filterByName
    split_ifs with h <;> simp_all [List.mem_filter]
  have hcat : ∀ cq l, p ∈ filterByCategory cq l ↔
      p ∈ l ∧ (cq ≠ "" → lowerContains cq (pyGet p "category") = true) := by
    intro cq l
    unfold filterByCategory
    split_ifs with h <;> simp_all [List.mem_filter]
  refine ⟨rfl, ?_, ?_⟩
  · unfold get_products_list filterByStock
    rw [hlower]
    simp [filterByName, filterByCategory]
  · unfold get_products_list filterByStock
    rcases hq with h | h | h <;> rw [h] <;> split_ifs <;>
      simp_all [List.mem_filter, hname, hcat] <;> tauto

/-- Witness for C3: a concrete query answers 200 on the initial store. -/
theorem get_products_filtering_witness :
    (get_products "cable" "Cables" "" initialState).status = 200 :=
  (get_products_filtering "cable" "Cables" "" initialState [] (Or.inl rfl)).1

/-- C4: with the other filters fixed, stock_status "low" keeps exactly the
records with stock_level < reorder_point among those passing the other
filters, and "out of stock" exactly those with stock_level ≤ 0. -/
theorem get_products_stock (nameQ categoryQ : String) (s : St) (p : Dict) (a b : Int)
    (ha : intLike (pyGet p "stock_level") = some a)
    (hb : intLike (pyGet p "reorder_point") = some b) :
    (p ∈ get_products_list nameQ categoryQ "low" s ↔
       p ∈ get_products_list nameQ categoryQ "" s ∧ a < b) ∧
    (p ∈ get_products_list nameQ categoryQ "out of stock" s ↔
       p ∈ get_products_list nameQ categoryQ "" s ∧ a ≤ 0) := by
  have h1 : get_products_list nameQ categoryQ "low" s =
      (get_products_list nameQ categoryQ "" s).filter stockLow := by
    unfold get_products_list filterByStock
    have h : strLower "low" = "low" := by decide
    rw [h, show strLower "" = "" from rfl]
    simp
  have h2 : get_products_list nameQ categoryQ "out of stock" s =
      (get_products_list nameQ categoryQ "" s).filter stockOut := by
    unfold get_products_list filterByStock
    have h : strLower "out of stock" = "out of stock" := by decide
    rw [h, show strLower "" = "" from rfl]
    simp
  rw [h1, h2]
  constructor
  · rw [List.mem_filter]
    simp [stockLow, ha, hb]
  · rw [List.mem_filter]
    simp [stockOut, ha]

/-- Witness for C4: the stock filters evaluated on initial product 4
(stock 10, reorder point 5). -/
theorem get_products_stock_witness :
    (prod4rec ∈ get_products_list "" "" "low" initialState ↔
       prod4rec ∈ get_products_list "" "" "" initialState ∧ (10 : Int) < 5) ∧
    (prod4rec ∈ get_products_list "" "" "out of stock" initialState ↔
       prod4rec ∈ get_products_list "" "" "" initialState ∧ (10 : Int) ≤ 0) :=
  get_products_stock "" "" initialState prod4rec 10 5 rfl rfl

/-- The field dict of a `product` payload value: Python's
`auth_data.get('product', {})` followed by use as a dict.  A present
non-dict value would raise in Python at `dict.update` / the `in` test;
the embedding maps it to the empty dict and no theorem relies on that
branch. -/
def asObj : Value → Dict
  | .vObj fs => fs
  | _ => []

/-- The `PUT /products/<id>` handler: 403 unless Admin or Manager; 404 when
the id is unbound or bound to a falsy (empty) record; else merges the
supplied partial product object into the record in place and returns it
with 200. -/
def update_product (pid : Int) (req : Dict) (s : St) : Response × St :=
  if reqRole req ∉ ([some "Admin", some "Manager"] : List (Option String)) then
    (⟨403, errBody "Unauthorized access"⟩, s)
  else
    match alGet s.products pid with
    | none => (⟨404, errBody "Product not found"⟩, s)
    | some product =>
        if product.isEmpty then (⟨404, errBody "Product not found"⟩, s)
        else
          let merged := dictUpdate product (asObj (pyGetD req "product" (.vObj [])))
          (⟨200, .vObj merged⟩, { s with products := alSet s.products pid merged })

/-- The `DELETE /products/<id>` handler: 403 unless Admin; 404 when the id
is unbound; else removes the entry. -/
def delete_product (pid : Int) (req : Dict) (s : St) : Response × St :=
  if reqRole req ≠ some "Admin" then
    (⟨403, errBody "Unauthorized access"⟩, s)
  else if (alGet s.products pid).isNone then
    (⟨404, errBody "Product not found"⟩, s)
  else
    (⟨200, .vObj [("message", .vStr "Product deleted")]⟩,
     { s with products := alDel s.products pid })

/-- The `PUT /products/<id>/stock` handler: 403 unless the credentials
resolve to any of the three roles; 404 when the id is unbound or bound to
a falsy record; 400 when `change` (default 0) fails `isinstance(change,
int)` or equals 0; else adds `change` to the record's stock_level in place
(on an int-like level — Python would raise on other types) and returns the
record with 200. -/
def update_stock (pid : Int) (req : Dict) (s : St) : Response × St :=
  if reqRole req ∉ ([some "Admin", some "Manager", some "Staff"] : List (Option String)) then
    (⟨403, errBody "Unauthorized access"⟩, s)
  else
    match alGet s.products pid with
    | none => (⟨404, errBody "Product not found"⟩, s)
    | some product =>
        if product.isEmpty then (⟨404, errBody "Product not found"⟩, s)
        else
          let change := pyGetD req "change" (.vInt 0)
          if (intLike change).isNone || pyToInt change == 0 then
            (⟨400, errBody "Invalid stock change value"⟩, s)
          else
            let newRec :=
              match intLike (pyGet product "stock_level") with
              | some a => alSet product "stock_level" (.vInt (a + pyToInt change))
              | none => product
            (⟨200, .vObj newRec⟩, { s with products := alSet s.products pid newRec })

/-- The `GET /suppliers` handler: 200 with the collection in store order. -/
def get_suppliers (s : St) : Response :=
  ⟨200, .vArr ((s.suppliers.map Prod.snd).map Value.vObj)⟩

/-- The `POST /suppliers` handler: 403 unless Admin; 400 when the supplier
object is empty or lacks `name` (a non-dict value would raise in Python
and is mapped to the same no-mutation 400 outcome); else builds the record
under the current counter with `contact_info` defaulting to the empty
string, stores it and bumps the counter. -/
def add_supplier (req : Dict) (s : St) : Response × St :=
  if reqRole req ≠ some "Admin" then
    (⟨403, errBody "Unauthorized access"⟩, s)
  else
    match pyGetD req "supplier" (.vObj []) with
    | .vObj fs =>
        if fs.isEmpty || (alGet fs "name").isNone then
          (⟨400, errBody "Invalid supplier data"⟩, s)
        else
          let ns : Dict :=
            [("id", .vInt s.supplier_id_counter), ("name", pyGet fs "name"),
             ("contact_info", pyGetD fs "contact_info" (.vStr ""))]
          (⟨201, .vObj ns⟩,
           { s with suppliers := alSet s.suppliers s.supplier_id_counter ns,
                    supplier_id_counter := s.supplier_id_counter + 1 })
    | _ => (⟨400, errBody "Invalid supplier data"⟩, s)

/-- C9: DELETE /products/<id> with Admin credentials on an id that is not a
key of the product collection answers 404 and leaves the whole state —
collection and counter — exactly as it was. -/
theorem delete_product_missing (pid : Int) (req : Dict) (s : St)
    (hrole : reqRole req = some "Admin")
    (habs : alGet s.products pid = none) :
    delete_product pid req s = (⟨404, errBody "Product not found"⟩, s) := by
  unfold delete_product
  rw [hrole, habs]
  simp

/-- A DELETE request with the admin credentials. -/
def reqAdminOnly : Dict :=
  [("username", .vStr "admin"), ("password", .vStr "adminpassword")]

/-- Witness for C9: deleting the unbound id 99 from the initial store
answers 404 and changes nothing. -/
theorem delete_product_missing_witness :
    delete_product 99 reqAdminOnly initialState =
      (⟨404, errBody "Product not found"⟩, initialState) :=
  delete_product_missing 99 reqAdminOnly initialState rfl rfl

theorem alGet_alSet {α β : Type} [DecidableEq α] (l : List (α × β)) (k : α) (v : β) (q : α) :
    alGet (alSet l k v) q = if q = k then some v else alGet l q := by
  induction l with
  | nil => simp [alSet, alGet]
  | cons hd tl ih =>
    obtain ⟨k₀, v₀⟩ := hd
    by_cases hk : k = k₀
    · subst hk
      by_cases hq : q = k <;> simp [alSet, alGet, hq]
    · by_cases hq : q = k₀
      · subst hq
        have hqk : q ≠ k := fun h => hk h.symm
        simp [alSet, alGet, hk, hqk]
      · simp [alSet, alGet, hk, hq, ih]

theorem alGet_eq_none_iff {α β : Type} [DecidableEq α] (l : List (α × β)) (k : α) :
    alGet l k = none ↔ k ∉ alKeys l := by
  induction l with
  | nil => simp [alGet, alKeys]
  | cons hd tl ih =>
    obtain ⟨k₀, v₀⟩ := hd
    by_cases hk : k = k₀ <;> simp [alGet, alKeys, hk] <;> simp_all [alKeys]

theorem alSet_eq_of_get {α β : Type} [DecidableEq α] (l : List (α × β)) (k : α) (v : β)
    (h : alGet l k = some v) : alSet l k v = l := by
  induction l with
  | nil => simp [alGet] at h
  | cons hd tl ih =>
    obtain ⟨k₀, v₀⟩ := hd
    by_cases hk : k = k₀
    · subst hk
      simp [alGet] at h
      simp [alSet, h]
    · simp [alGet, hk] at h
      simp [alSet, hk, ih h]

theorem dictUpdate_get_not_mem (d u : Dict) (k : String)
    (h : alGet u k = none) : alGet (dictUpdate d u) k = alGet d k := by
  induction u generalizing d with
  | nil => rfl
  | cons hd tl ih =>
    obtain ⟨k₀, v₀⟩ := hd
    by_cases hk : k = k₀
    · simp [alGet, hk] at h
    · simp only [alGet, if_neg hk] at h
      show alGet (dictUpdate (alSet d k₀ v₀) tl) k = alGet d k
      rw [ih _ h, alGet_alSet, if_neg hk]

theorem alKeys_cons {α β : Type} (a : α) (b : β) (l : List (α × β)) :
    alKeys ((a, b) :: l) = a :: alKeys l := rfl

theorem dictUpdate_get_mem (d u : Dict) (k : String) (v : Value)
    (hnodup : (alKeys u).Nodup) (h : alGet u k = some v) :
    alGet (dictUpdate d u) k = some v := by
  induction u generalizing d with
  | nil => simp [alGet] at h
  | cons hd tl ih =>
    obtain ⟨k₀, v₀⟩ := hd
    rw [alKeys_cons, List.nodup_cons] at hnodup
    by_cases hk : k = k₀
    · subst hk
      simp [alGet] at h
      have htl : alGet tl k = none := (alGet_eq_none_iff tl k).2 hnodup.1
      show alGet (dictUpdate (alSet d k v₀) tl) k = some v
      rw [dictUpdate_get_not_mem _ _ _ htl, alGet_alSet, if_pos rfl, h]
    · simp only [alGet, if_neg hk] at h
      show alGet (dictUpdate (alSet d k₀ v₀) tl) k = some v
      exact ih _ hnodup.2 h

/-- C6: a successful PUT /products/<id> answers 200 with the shallow merge
of the supplied partial object onto the stored record and stores exactly
that merge under the same id: every key of the input (a well-formed JSON
object, so with distinct keys) ends up bound to the input's value —
including a caller-supplied id — every key absent from the input keeps the
record's value, and every other product's record is untouched. -/
theorem update_product_merge (pid : Int) (req : Dict) (s : St) (rec upd : Dict)
    (hrole : reqRole req ∈ ([some "Admin", some "Manager"] : List (Option String)))
    (hrec : alGet s.products pid = some rec) (hne : rec.isEmpty = false)
    (hupd : alGet req "product" = some (.vObj upd))
    (hnodup : (alKeys upd).Nodup) :
    update_product pid req s =
      (⟨200, .vObj (dictUpdate rec upd)⟩,
       { s with products := alSet s.products pid (dictUpdate rec upd) }) ∧
    (∀ k v, alGet upd k = some v → alGet (dictUpdate rec upd) k = some v) ∧
    (∀ k, alGet upd k = none → alGet (dictUpdate rec upd) k = alGet rec k) ∧
    (∀ q, q ≠ pid → alGet (alSet s.products pid (dictUpdate rec upd)) q = alGet s.products q) := by
  refine ⟨?_, ?_, ?_, ?_⟩
  · unfold update_product
    rw [hrec]
    simp [hrole, hne, pyGetD, hupd, asObj]
  · intro k v h
    exact dictUpdate_get_mem rec upd k v hnodup h
  · intro k h
    exact dictUpdate_get_not_mem rec upd k h
  · intro q hq
    rw [alGet_alSet, if_neg hq]

/-- A PUT /products/2 request from the manager setting only stock_level. -/
def reqMgrUpd : Dict :=
  [("username", .vStr "manager"), ("password", .vStr "managerpassword"),
   ("product", .vObj [("stock_level", .vInt 60)])]

/-- Witness for C6: the manager updates product 2's stock_level field only;
the stored record becomes the merge. -/
theorem update_product_merge_witness :
    update_product 2 reqMgrUpd initialState =
      (⟨200, .vObj (dictUpdate prod2rec [("stock_level", Value.vInt 60)])⟩,
       { initialState with
           products := alSet initialState.products 2
             (dictUpdate prod2rec [("stock_level", Value.vInt 60)]) }) :=
  (update_product_merge 2 reqMgrUpd initialState prod2rec [("stock_level", .vInt 60)]
    (by decide) rfl rfl rfl (by simp [alKeys])).1

/-- C10: an authorized PUT /products/<id> on an existing (nonempty) record
whose body has no `product` key, or an empty product object, is not an
error: it answers 200 with the record and leaves the state exactly
unchanged. -/
theorem update_product_no_payload (pid : Int) (req : Dict) (s : St) (rec : Dict)
    (hrole : reqRole req ∈ ([some "Admin", some "Manager"] : List (Option String)))
    (hrec : alGet s.products pid = some rec) (hne : rec.isEmpty = false)
    (hupd : alGet req "product" = none ∨ alGet req "product" = some (.vObj [])) :
    update_product pid req s = (⟨200, .vObj rec⟩, s) := by
  unfold update_product
  rw [hrec]
  have hobj : asObj (pyGetD req "product" (.vObj [])) = [] := by
    rcases hupd with h | h <;> simp [pyGetD, h, asObj]
  rw [hobj]
  have hmerge : ∀ d : Dict, dictUpdate d [] = d := fun d => rfl
  simp [hrole, hne, hmerge, alSet_eq_of_get s.products pid rec hrec]

/-- A PUT /products/1 request with admin credentials and no product key. -/
def reqAdminUpdNone : Dict :=
  [("username", .vStr "admin"), ("password", .vStr "adminpassword")]

/-- Witness for C10: the admin sends PUT /products/1 with no payload; the
handler answers 200 and state is unchanged. -/
theorem update_product_no_payload_witness :
    update_product 1 reqAdminUpdNone initialState = (⟨200, .vObj prod1rec⟩, initialState) :=
  update_product_no_payload 1 reqAdminUpdNone initialState prod1rec
    (by decide) rfl rfl (Or.inl rfl)

/-- C7: an authorized PUT /products/<id>/stock on an existing record with a
nonzero integer change adds the change to stock_level — no floor at zero —
stores the adjusted record under the same id with nothing else touched,
and answers 200 with that record. -/
theorem update_stock_effect (pid : Int) (req : Dict) (s : St) (rec : Dict) (n c : Int)
    (hrole : reqRole req ∈ ([some "Admin", some "Manager", some "Staff"] : List (Option String)))
    (hrec : alGet s.products pid = some rec) (hne : rec.isEmpty = false)
    (hstock : alGet rec "stock_level" = some (.vInt n))
    (hchange : alGet req "change" = some (.vInt c)) (hc : c ≠ 0) :
    update_stock pid req s =
      (⟨200, .vObj (alSet rec "stock_level" (.vInt (n + c)))⟩,
       { s with products := alSet s.products pid (alSet rec "stock_level" (.vInt (n + c))) }) := by
  unfold update_stock
  rw [hrec]
  simp [hrole, hne, pyGetD, pyGet, hchange, hstock, intLike, pyToInt, hc]

/-- A PUT /products/2/stock request from staff with change -1000. -/
def reqStaffStock : Dict :=
  [("username", .vStr "staff"), ("password", .vStr "staffpassword"),
   ("change", .vInt (-1000))]

/-- Witness for C7: staff applies change -1000 to product 2 (stock 50);
the stock becomes -950 and the reply is 200 with the adjusted record. -/
theorem update_stock_effect_witness :
    update_stock 2 reqStaffStock initialState =
      (⟨200, .vObj (alSet prod2rec "stock_level" (.vInt (-950)))⟩,
       { initialState with
           products := alSet initialState.products 2
             (alSet prod2rec "stock_level" (.vInt (-950))) }) := by
  have h := update_stock_effect 2 reqStaffStock initialState prod2rec 50 (-1000)
    (by decide) rfl rfl rfl rfl (by decide)
  norm_num at h
  exact h

/-- C8: an authorized PUT /products/<id>/stock on an existing record with
int-like stock answers 400 with the state untouched exactly when the
supplied change is missing, zero, or fails Python's integer-type test
(`isinstance(change, int)`, under which a `bool` counts as an integer);
in every other case the adjustment goes through with status 200. -/
theorem update_stock_validation (pid : Int) (req : Dict) (s : St) (rec : Dict) (a : Int)
    (hrole : reqRole req ∈ ([some "Admin", some "Manager", some "Staff"] : List (Option String)))
    (hrec : alGet s.products pid = some rec) (hne : rec.isEmpty = false)
    (hstock : intLike (pyGet rec "stock_level") = some a) :
    (((update_stock pid req s).1.status = 400 ∧ (update_stock pid req s).2 = s) ↔
      (alGet req "change" = none ∨
       ∃ v, alGet req "change" = some v ∧ (intLike v = none ∨ pyToInt v = 0))) ∧
    ((¬ (alGet req "change" = none ∨
        ∃ v, alGet req "change" = some v ∧ (intLike v = none ∨ pyToInt v = 0))) →
      (update_stock pid req s).1.status = 200) := by
  unfold update_stock
  cases hch : alGet req "change" with
  | none =>
    constructor
    · rw [hrec]
      simp [hrole, hne, pyGetD, hch, intLike, pyToInt]
    · intro hno
      exact absurd (Or.inl rfl) hno
  | some v =>
    cases hv : intLike v with
    | none =>
      constructor
      · rw [hrec]
        simp [hrole, hne, pyGetD, hch, hv]
      · intro hno
        exact absurd (Or.inr ⟨v, rfl, Or.inl hv⟩) hno
    | some k =>
      by_cases hk : k = 0
      · subst hk
        constructor
        · rw [hrec]
          simp [hrole, hne, pyGetD, hch, hv, pyToInt]
        · intro hno
          exact absurd (Or.inr ⟨v, rfl, Or.inr (by simp [pyToInt, hv])⟩) hno
      · have hgoal : (update_stock pid req s).1.status = 200 := by
          unfold update_stock
          rw [hrec]
          simp [hrole, hne, pyGetD, hch, hv, pyToInt, hk]
        constructor
        · rw [hrec]
          constructor
          · intro hcontra
            simp [hrole, hne, pyGetD, hch, hv, pyToInt, hk] at hcontra
          · rintro (h | ⟨v', hv', h⟩)
            · simp at h
            · cases hv'
              rcases h with h | h
              · rw [hv] at h
                simp at h
              · have hpt : pyToInt v = k := by simp [pyToInt, hv]
                rw [hpt] at h
                exact absurd h hk
        · intro _
          exact hgoal

/-- A PUT /products/2/stock request from staff with no change field. -/
def reqStaffNoChange : Dict :=
  [("username", .vStr "staff"), ("password", .vStr "staffpassword")]

/-- Witness for C8: with the change field missing the handler answers 400
and the state is untouched. -/
theorem update_stock_validation_witness :
    ((update_stock 2 reqStaffNoChange initialState).1.status = 400 ∧
     (update_stock 2 reqStaffNoChange initialState).2 = initialState) ↔
      (alGet reqStaffNoChange "change" = none ∨
       ∃ v, alGet reqStaffNoChange "change" = some v ∧
         (intLike v = none ∨ pyToInt v = 0)) :=
  (update_stock_validation 2 reqStaffNoChange initialState prod2rec 50
    (by decide) rfl rfl rfl).1

theorem alKeys_alSet_mem {α β : Type} [DecidableEq α] (l : List (α × β)) (k : α) (v : β)
    (h : k ∈ alKeys l) : alKeys (alSet l k v) = alKeys l := by
  induction l with
  | nil => simp [alKeys] at h
  | cons hd tl ih =>
    obtain ⟨k₀, v₀⟩ := hd
    by_cases hk : k = k₀
    · simp [alSet, hk, alKeys]
    · rw [alKeys_cons, List.mem_cons] at h
      rcases h with h | h
      · exact absurd h hk
      · simp [alSet, hk, alKeys_cons, ih h]

theorem alKeys_alSet_not_mem {α β : Type} [DecidableEq α] (l : List (α × β)) (k : α) (v : β)
    (h : k ∉ alKeys l) : alKeys (alSet l k v) = alKeys l ++ [k] := by
  induction l with
  | nil => simp [alSet, alKeys]
  | cons hd tl ih =>
    obtain ⟨k₀, v₀⟩ := hd
    rw [alKeys_cons, List.mem_cons] at h
    push_neg at h
    simp [alSet, h.1, alKeys_cons, ih h.2]

theorem alKeys_alDel_sublist {α β : Type} [DecidableEq α] (l : List (α × β)) (k : α) :
    List.Sublist (alKeys (alDel l k)) (alKeys l) := by
  induction l with
  | nil => simp [alDel, alKeys]
  | cons hd tl ih =>
    obtain ⟨k₀, v₀⟩ := hd
    by_cases hk : k = k₀
    · simp only [alDel, if_pos hk, alKeys_cons]
      exact List.sublist_cons_self k₀ (alKeys tl)
    · simp only [alDel, if_neg hk, alKeys_cons]
      exact ih.cons₂ k₀

/-- A client-visible request: the route and its inputs. -/
inductive Op : Type where
  | opLogin (req : Dict)
  | opGetProducts (nameQ categoryQ stockQ : String)
  | opAddProduct (req : Dict)
  | opUpdateProduct (pid : Int) (req : Dict)
  | opDeleteProduct (pid : Int) (req : Dict)
  | opUpdateStock (pid : Int) (req : Dict)
  | opGetSuppliers
  | opAddSupplier (req : Dict)

/-- Dispatch one request to its handler: the response and successor state. -/
def step : Op → St → Response × St
  | .opLogin req, s => (login req, s)
  | .opGetProducts n c q, s => (get_products n c q s, s)
  | .opAddProduct req, s => add_product req s
  | .opUpdateProduct pid req, s => update_product pid req s
  | .opDeleteProduct pid req, s => delete_product pid req s
  | .opUpdateStock pid req, s => update_stock pid req s
  | .opGetSuppliers, s => (get_suppliers s, s)
  | .opAddSupplier req, s => add_supplier req s

/-- The state reached after one request. -/
def applyOp (s : St) (o : Op) : St := (step o s).2

/-- The state reached from startup after a sequence of requests. -/
def run (ops : List Op) : St := ops.foldl applyOp initialState

/-- Id discipline: keys of each collection are distinct and strictly below
its counter. -/
def goodIds (s : St) : Prop :=
  (alKeys s.products).Nodup ∧ (∀ k ∈ alKeys s.products, k < s.product_id_counter) ∧
  (alKeys s.suppliers).Nodup ∧ (∀ k ∈ alKeys s.suppliers, k < s.supplier_id_counter)

/-- Every request either leaves the state alone, rewrites one bound product
key in place, deletes a product key, or creates a product / supplier under
the current counter and bumps that counter. -/
theorem applyOp_effect (o : Op) (s : St) :
    applyOp s o = s ∨
    (∃ pid newRec, alGet s.products pid ≠ none ∧
       applyOp s o = { s with products := alSet s.products pid newRec }) ∨
    (∃ pid, applyOp s o = { s with products := alDel s.products pid }) ∨
    (∃ np, applyOp s o =
       { s with products := alSet s.products s.product_id_counter np,
                product_id_counter := s.product_id_counter + 1 }) ∨
    (∃ ns, applyOp s o =
       { s with suppliers := alSet s.suppliers s.supplier_id_counter ns,
                supplier_id_counter := s.supplier_id_counter + 1 }) := by
  cases o with
  | opLogin req => exact Or.inl rfl
  | opGetProducts n c q => exact Or.inl rfl
  | opGetSuppliers => exact Or.inl rfl
  | opAddProduct req =>
    simp only [applyOp, step]
    unfold add_product
    by_cases h1 : reqRole req ∉ ([some "Admin", some "Manager"] : List (Option String))
    · rw [if_pos h1]
      exact Or.inl rfl
    · rw [if_neg h1]
      cases hpd : pyGetD req "product" (.vObj []) with
      | vObj fs =>
        by_cases h2 : (fs.isEmpty || requiredProductKeys.any fun k => (alGet fs k).isNone) = true
        · simp only [if_pos h2]
          exact Or.inl trivial
        · simp only [if_neg h2]
          exact Or.inr (Or.inr (Or.inr (Or.inl ⟨_, rfl⟩)))
      | vNull => exact Or.inl rfl
      | vBool b => exact Or.inl rfl
      | vInt n => exact Or.inl rfl
      | vStr t => exact Or.inl rfl
      | vArr a => exact Or.inl rfl
  | opUpdateProduct pid req =>
    simp only [applyOp, step]
    unfold update_product
    by_cases h1 : reqRole req ∉ ([some "Admin", some "Manager"] : List (Option String))
    · rw [if_pos h1]
      exact Or.inl rfl
    · rw [if_neg h1]
      cases hrec : alGet s.products pid with
      | none => exact Or.inl rfl
      | some rec =>
        by_cases h2 : rec.isEmpty = true
        · simp only [if_pos h2]
          exact Or.inl trivial
        · simp only [if_neg h2]
          exact Or.inr (Or.inl ⟨pid, _, by simp [hrec], rfl⟩)
  | opDeleteProduct pid req =>
    simp only [applyOp, step]
    unfold delete_product
    by_cases h1 : reqRole req ≠ some "Admin"
    · rw [if_pos h1]
      exact Or.inl rfl
    · rw [if_neg h1]
      by_cases h2 : (alGet s.products pid).isNone = true
      · rw [if_pos h2]
        exact Or.inl rfl
      · rw [if_neg h2]
        exact Or.inr (Or.inr (Or.inl ⟨pid, rfl⟩))
  | opUpdateStock pid req =>
    simp only [applyOp, step]
    unfold update_stock
    by_cases h1 : reqRole req ∉ ([some "Admin", some "Manager", some "Staff"] : List (Option String))
    · rw [if_pos h1]
      exact Or.inl rfl
    · rw [if_neg h1]
      cases hrec : alGet s.products pid with
      | none => exact Or.inl rfl
      | some rec =>
        by_cases h2 : rec.isEmpty = true
        · simp only [if_pos h2]
          exact Or.inl trivial
        · simp only [if_neg h2]
          by_cases h3 : ((intLike (pyGetD req "change" (.vInt 0))).isNone ||
              pyToInt (pyGetD req "change" (.vInt 0)) == 0) = true
          · simp only [if_pos h3]
            exact Or.inl trivial
          · simp only [if_neg h3]
            exact Or.inr (Or.inl ⟨pid, _, by simp [hrec], rfl⟩)
  | opAddSupplier req =>
    simp only [applyOp, step]
    unfold add_supplier
    by_cases h1 : reqRole req ≠ some "Admin"
    · rw [if_pos h1]
      exact Or.inl rfl
    · rw [if_neg h1]
      cases hsd : pyGetD req "supplier" (.vObj []) with
      | vObj fs =>
        by_cases h2 : (fs.isEmpty || (alGet fs "name").isNone) = true
        · simp only [if_pos h2]
          exact Or.inl trivial
        · simp only [if_neg h2]
          exact Or.inr (Or.inr (Or.inr (Or.inr ⟨_, rfl⟩)))
      | vNull => exact Or.inl rfl
      | vBool b => exact Or.inl rfl
      | vInt n => exact Or.inl rfl
      | vStr t => exact Or.inl rfl
      | vArr a => exact Or.inl rfl

/-- Each counter never decreases across a request. -/
theorem counters_mono (s : St) (o : Op) :
    s.product_id_counter ≤ (applyOp s o).product_id_counter ∧
    s.supplier_id_counter ≤ (applyOp s o).supplier_id_counter := by
  rcases applyOp_effect o s with h | ⟨pid, nr, _, h⟩ | ⟨pid, h⟩ | ⟨np, h⟩ | ⟨ns, h⟩ <;>
    rw [h] <;> constructor <;> simp <;> omega

/-- The id discipline is preserved by every request. -/
theorem goodIds_applyOp (s : St) (o : Op) (h : goodIds s) : goodIds (applyOp s o) := by
  obtain ⟨hnd, hlt, hnds, hlts⟩ := h
  rcases applyOp_effect o s with heq | ⟨pid, nr, hb, heq⟩ | ⟨pid, heq⟩ | ⟨np, heq⟩ | ⟨ns, heq⟩ <;>
    rw [heq]
  · exact ⟨hnd, hlt, hnds, hlts⟩
  · have hmem : pid ∈ alKeys s.products := by
      by_contra hcon
      exact hb ((alGet_eq_none_iff s.products pid).2 hcon)
    rw [goodIds]
    simp only [alKeys_alSet_mem s.products pid nr hmem]
    exact ⟨hnd, hlt, hnds, hlts⟩
  · refine ⟨(alKeys_alDel_sublist s.products pid).nodup hnd, ?_, hnds, hlts⟩
    intro k hk
    exact hlt k ((alKeys_alDel_sublist s.products pid).subset hk)
  · have hnew : s.product_id_counter ∉ alKeys s.products := by
      intro hcon
      exact absurd (hlt _ hcon) (lt_irrefl _)
    rw [goodIds]
    simp only [alKeys_alSet_not_mem s.products _ np hnew]
    refine ⟨?_, ?_, hnds, hlts⟩
    · rw [List.nodup_append]
      exact ⟨hnd, List.nodup_singleton _, by
        intro a ha hb2
        rw [List.mem_singleton] at hb2
        subst hb2
        exact absurd (hlt _ ha) (lt_irrefl _)⟩
    · intro k hk
      rw [List.mem_append, List.mem_singleton] at hk
      rcases hk with hk | hk
      · exact lt_trans (hlt k hk) (by omega)
      · omega
  · have hnew : s.supplier_id_counter ∉ alKeys s.suppliers := by
      intro hcon
      exact absurd (hlts _ hcon) (lt_irrefl _)
    rw [goodIds]
    simp only [alKeys_alSet_not_mem s.suppliers _ ns hnew]
    refine ⟨hnd, hlt, ?_, ?_⟩
    · rw [List.nodup_append]
      exact ⟨hnds, List.nodup_singleton _, by
        intro a ha hb2
        rw [List.mem_singleton] at hb2
        subst hb2
        exact absurd (hlts _ ha) (lt_irrefl _)⟩
    · intro k hk
      rw [List.mem_append, List.mem_singleton] at hk
      rcases hk with hk | hk
      · exact lt_trans (hlts k hk) (by omega)
      · omega

/-- The id discipline holds at startup. -/
theorem goodIds_initialState : goodIds initialState := by
  refine ⟨?_, ?_, ?_, ?_⟩ <;> decide

theorem goodIds_foldl (s : St) (l : List Op) (h : goodIds s) :
    goodIds (l.foldl applyOp s) := by
  induction l generalizing s with
  | nil => exact h
  | cons o l ih => exact ih (applyOp s o) (goodIds_applyOp s o h)

/-- The id discipline holds in every reachable state. -/
theorem goodIds_run (ops : List Op) : goodIds (run ops) :=
  goodIds_foldl initialState ops goodIds_initialState

theorem counters_le_foldl (s : St) (l : List Op) :
    s.product_id_counter ≤ (l.foldl applyOp s).product_id_counter ∧
    s.supplier_id_counter ≤ (l.foldl applyOp s).supplier_id_counter := by
  induction l generalizing s with
  | nil => exact ⟨le_refl _, le_refl _⟩
  | cons o l ih =>
    refine ⟨le_trans (counters_mono s o).1 (ih (applyOp s o)).1,
            le_trans (counters_mono s o).2 (ih (applyOp s o)).2⟩

/-- A create that answers 201 stored the new record under the old counter
value and bumped the counter. -/
theorem add_product_201 (req : Dict) (s : St)
    (h : (add_product req s).1.status = 201) :
    ∃ np, (add_product req s).2 =
      { s with products := alSet s.products s.product_id_counter np,
               product_id_counter := s.product_id_counter + 1 } := by
  unfold add_product at h ⊢
  by_cases h1 : reqRole req ∉ ([some "Admin", some "Manager"] : List (Option String))
  · rw [if_pos h1] at h
    simp at h
  · rw [if_neg h1] at h ⊢
    cases hpd : pyGetD req "product" (.vObj []) with
    | vObj fs =>
      rw [hpd] at h
      by_cases h2 : (fs.isEmpty || requiredProductKeys.any fun k => (alGet fs k).isNone) = true
      · simp only [if_pos h2] at h
        simp at h
      · simp only [if_neg h2] at h ⊢
        exact ⟨_, rfl⟩
    | vNull => rw [hpd] at h; simp at h
    | vBool b => rw [hpd] at h; simp at h
    | vInt n => rw [hpd] at h; simp at h
    | vStr t => rw [hpd] at h; simp at h
    | vArr a => rw [hpd] at h; simp at h

/-- A supplier create that answers 201 stored the new record under the old
counter value and bumped the counter. -/
theorem add_supplier_201 (req : Dict) (s : St)
    (h : (add_supplier req s).1.status = 201) :
    ∃ ns, (add_supplier req s).2 =
      { s with suppliers := alSet s.suppliers s.supplier_id_counter ns,
               supplier_id_counter := s.supplier_id_counter + 1 } := by
  unfold add_supplier at h ⊢
  by_cases h1 : reqRole req ≠ some "Admin"
  · rw [if_pos h1] at h
    simp at h
  · rw [if_neg h1] at h ⊢
    cases hsd : pyGetD req "supplier" (.vObj []) with
    | vObj fs =>
      rw [hsd] at h
      by_cases h2 : (fs.isEmpty || (alGet fs "name").isNone) = true
      · simp only [if_pos h2] at h
        simp at h
      · simp only [if_neg h2] at h ⊢
        exact ⟨_, rfl⟩
    | vNull => rw [hsd] at h; simp at h
    | vBool b => rw [hsd] at h; simp at h
    | vInt n => rw [hsd] at h; simp at h
    | vStr t => rw [hsd] at h; simp at h
    | vArr a => rw [hsd] at h; simp at h

theorem run_append (pre suf : List Op) :
    run (pre ++ suf) = suf.foldl applyOp (run pre) := by
  simp only [run, List.foldl_append]

/-- C5: after any sequence of requests from startup, product and supplier
ids (store keys) are distinct; both id counters never decrease across any
further request; and a create that succeeds (201) appends its record under
the old counter value, bumps the counter, and that assigned id is strictly
greater than every id present in the state after any earlier prefix of the
sequence — so ids are never reused, even after deletion. -/
theorem id_assignment (ops : List Op) :
    (alKeys (run ops).products).Nodup ∧
    (alKeys (run ops).suppliers).Nodup ∧
    (∀ o : Op, (run ops).product_id_counter ≤ (applyOp (run ops) o).product_id_counter ∧
               (run ops).supplier_id_counter ≤ (applyOp (run ops) o).supplier_id_counter) ∧
    (∀ req, (add_product req (run ops)).1.status = 201 →
       alKeys (add_product req (run ops)).2.products
         = alKeys (run ops).products ++ [(run ops).product_id_counter] ∧
       (add_product req (run ops)).2.product_id_counter = (run ops).product_id_counter + 1 ∧
       (∀ pre suf, ops = pre ++ suf →
          ∀ k ∈ alKeys (run pre).products, k < (run ops).product_id_counter)) ∧
    (∀ req, (add_supplier req (run ops)).1.status = 201 →
       alKeys (add_supplier req (run ops)).2.suppliers
         = alKeys (run ops).suppliers ++ [(run ops).supplier_id_counter] ∧
       (add_supplier req (run ops)).2.supplier_id_counter = (run ops).supplier_id_counter + 1 ∧
       (∀ pre suf, ops = pre ++ suf →
          ∀ k ∈ alKeys (run pre).suppliers, k < (run ops).supplier_id_counter)) := by
  obtain ⟨hnd, hlt, hnds, hlts⟩ := goodIds_run ops
  have hfresh : (run ops).product_id_counter ∉ alKeys (run ops).products := by
    intro hcon
    exact absurd (hlt _ hcon) (lt_irrefl _)
  have hfreshs : (run ops).supplier_id_counter ∉ alKeys (run ops).suppliers := by
    intro hcon
    exact absurd (hlts _ hcon) (lt_irrefl _)
  refine ⟨hnd, hnds, fun o => counters_mono (run ops) o, ?_, ?_⟩
  · intro req h201
    obtain ⟨np, hst⟩ := add_product_201 req (run ops) h201
    rw [hst]
    refine ⟨alKeys_alSet_not_mem _ _ _ hfresh, rfl, ?_⟩
    intro pre suf hsplit k hk
    have hle : (run pre).product_id_counter ≤ (run ops).product_id_counter := by
      rw [hsplit, run_append]
      exact (counters_le_foldl (run pre) suf).1
    exact lt_of_lt_of_le ((goodIds_run pre).2.1 k hk) hle
  · intro req h201
    obtain ⟨ns, hst⟩ := add_supplier_201 req (run ops) h201
    rw [hst]
    refine ⟨alKeys_alSet_not_mem _ _ _ hfreshs, rfl, ?_⟩
    intro pre suf hsplit k hk
    have hle : (run pre).supplier_id_counter ≤ (run ops).supplier_id_counter := by
      rw [hsplit, run_append]
      exact (counters_le_foldl (run pre) suf).2
    exact lt_of_lt_of_le ((goodIds_run pre).2.2.2 k hk) hle

/-- A POST /products request from the admin with a complete product. -/
def reqAdminAdd : Dict :=
  [("username", .vStr "admin"), ("password", .vStr "adminpassword"),
   ("product", .vObj [("name", .vStr "Switch S-10"), ("category", .vStr "Networking"),
                      ("stock_level", .vInt 5), ("reorder_point", .vInt 2)])]

/-- Witness for C5: from the startup state, a successful admin create
appends key 5 (the counter) after the initial keys 1–4. -/
theorem id_assignment_witness :
    alKeys (add_product reqAdminAdd (run [])).2.products
      = alKeys (run []).products ++ [(run []).product_id_counter] :=
  ((id_assignment []).2.2.2.1 reqAdminAdd rfl).1

end Tims
